import Mathlib

/-!
Verification development for the sRGB color-contrast research tool.

The repository has three algorithmic parts:
* a lightness-table precomputation (`precompute-lightness.js`): exponential
  contrast interpolation, inversion of the WCAG contrast formula against a
  reference luminance of 1.0, a Y → Oklab lightness conversion and the OKHSL
  toe remap, followed by two-decimal rounding;
* a catalog generator that quantizes OKHSL lightness with `roundLightness`;
* an adaptive minimum-separation search loop (`runContrastTests`) that samples
  color pairs, deduplicates them with a bloom filter keyed by a canonical
  pair key, evaluates WCAG contrast and escalates the distance on failure.

Rational numbers model the exact values flowing through the discrete parts;
real numbers model the transcendental lightness pipeline.
-/

set_option maxRecDepth 10000

/-- JavaScript `Math.round`: rounds half-way cases toward positive infinity. -/
def jsRound (q : ℚ) : ℤ := ⌊q + 1/2⌋

/-- Mirrors the rounding performed by `computeAllLightnessValues` in
`precompute-lightness.js`: `Math.round(lightness * 100) / 100`, with no
special case of any kind. -/
def tableBuilderRound (lightness : ℚ) : ℚ := (jsRound (lightness * 100) : ℚ) / 100

/-- Mirrors `roundLightness` from the catalog generator: values in
`[0.995, 1.0)` map to `0.99`, values `≥ 1.0` map to `1.0`, and everything
else is rounded to two decimal places. -/
def roundLightness (ok_l : ℚ) : ℚ :=
  if 995/1000 ≤ ok_l ∧ ok_l < 1 then 99/100
  else if 1 ≤ ok_l then 1
  else (jsRound (ok_l * 100) : ℚ) / 100

/-- Color rows loaded by the search script: `SELECT r, g, b, y, rounded_ok_l`. -/
structure Color where
  r : ℕ
  g : ℕ
  b : ℕ
  y : ℚ
  rounded_ok_l : ℚ
deriving DecidableEq

/-- Mirrors `rgbToNumericValue`: `r * 65536 + g * 256 + b * 1`. -/
def rgbToNumericValue (color : Color) : ℕ :=
  color.r * 65536 + color.g * 256 + color.b * 1

/-- The `r,g,b` half of the pair-key template literal. -/
def colorTriple (color : Color) : String :=
  Nat.repr color.r ++ "," ++ Nat.repr color.g ++ "," ++ Nat.repr color.b

/-- Mirrors `createColorPairKey`: order the two colors by their numeric
encoding and join the two `r,g,b` triples with a pipe. -/
def createColorPairKey (color1 color2 : Color) : String :=
  let val1 := rgbToNumericValue color1
  let val2 := rgbToNumericValue color2
  let ordered := if val1 ≤ val2 then (color1, color2) else (color2, color1)
  colorTriple ordered.1 ++ "|" ++ colorTriple ordered.2

/-- Contrast computed by the `wcag-contrast` package from two relative
luminances: `(max + 0.05) / (min + 0.05)`. -/
def wcagLuminanceContrast (y1 y2 : ℚ) : ℚ :=
  (max y1 y2 + 1/20) / (min y1 y2 + 1/20)

/-- Mutable state of `runContrastTests`.  `testedCombinations` holds the set
of keys actually inserted into the current bloom-filter instance, and `genId`
tracks the identity of that instance: it is bumped every time the source
creates a new filter with `createBloomFilter()`. -/
structure TestState where
  distance : ℤ
  testCount : ℕ
  totalTestsRun : ℕ
  genId : ℕ
  testedCombinations : Finset String
deriving DecidableEq

/-- Read-only collaborators of the search loop: the precomputed lightness
table (`undefined` outside its key range, hence `Option`), the color buckets
grouped by `rounded_ok_l`, and the bloom filter's membership test `has`. A
bloom filter may report false positives, so `hasKey` is an arbitrary function;
exactness assumptions are stated per theorem. -/
structure SearchEnv where
  lightnessValues : ℤ → Option ℚ
  colorsByLightness : ℚ → List Color
  hasKey : Finset String → String → Bool

/-- Bucket lookup `colorsByLightness.get(lightness)`; an `undefined` lightness
finds no bucket. -/
def bucketFor (env : SearchEnv) (lightness : Option ℚ) : List Color :=
  match lightness with
  | some l => env.colorsByLightness l
  | none => []

/-- Mirrors `getRandomColorWithLightness`: a random element of the bucket, or
`null` when the bucket is missing or empty.  The random index is passed in
explicitly. -/
def pickColor (colors : List Color) (i : ℕ) : Option Color :=
  colors.get? (i % colors.length)

/-- Which branch of the loop body an iteration took.  `evaluated` also records
the distance and filter generation current at the moment the contrast was
computed. -/
inductive IterEvent where
  | emptyBucket : IterEvent
  | duplicateSkipped : String → IterEvent
  | evaluated : String → ℚ → Bool → ℤ → ℕ → IterEvent
deriving DecidableEq

/-- One iteration of the `while` body of `runContrastTests`, with the random
draws (`r1` for `step1`, `i1` and `i2` for the bucket indices) passed in.
Mirrors the source line by line: draw steps, look up lightness, draw colors,
discard on a missing color, discard on a positive `has`, otherwise insert the
key, compute the contrast, bump the counters, and on `contrast < 4.5` raise
the distance, zero `testCount` and install a fresh bloom filter. -/
def runIteration (env : SearchEnv) (st : TestState) (r1 : ℤ) (i1 i2 : ℕ) :
    TestState × IterEvent :=
  let step1 := r1
  let step2 := step1 + st.distance
  let lightness1 := env.lightnessValues step1
  let lightness2 := env.lightnessValues step2
  let color1 := pickColor (bucketFor env lightness1) i1
  let color2 := pickColor (bucketFor env lightness2) i2
  match color1, color2 with
  | some c1, some c2 =>
    let pairKey := createColorPairKey c1 c2
    if env.hasKey st.testedCombinations pairKey then
      (st, IterEvent.duplicateSkipped pairKey)
    else
      let contrast := wcagLuminanceContrast c1.y c2.y
      let st' : TestState :=
        { st with
          testedCombinations := insert pairKey st.testedCombinations
          testCount := st.testCount + 1
          totalTestsRun := st.totalTestsRun + 1 }
      if contrast < 9/2 then
        ({ st' with
            distance := st'.distance + 1
            testCount := 0
            genId := st'.genId + 1
            testedCombinations := ∅ },
         IterEvent.evaluated pairKey contrast true st.distance st.genId)
      else
        (st', IterEvent.evaluated pairKey contrast false st.distance st.genId)
  | _, _ => (st, IterEvent.emptyBucket)

/-- Runs the loop body over a list of random draws, collecting the events. -/
def runLoop (env : SearchEnv) : TestState → List (ℤ × ℕ × ℕ) →
    TestState × List IterEvent
  | st, [] => (st, [])
  | st, input :: rest =>
    let step := runIteration env st input.1 input.2.1 input.2.2
    let next := runLoop env step.1 rest
    (next.1, step.2 :: next.2)

/-- Keys passed to the contrast evaluator, grouped by distance level: an
escalating evaluation closes the current level's segment. -/
def levelSegmentsAux : List IterEvent → List String → List (List String)
  | [], current => [current]
  | IterEvent.evaluated k _ true _ _ :: es, current =>
    (current ++ [k]) :: levelSegmentsAux es []
  | IterEvent.evaluated k _ false _ _ :: es, current =>
    levelSegmentsAux es (current ++ [k])
  | _ :: es, current => levelSegmentsAux es current

/-- Keys passed to the contrast evaluator, one list per distance level. -/
def levelSegments (es : List IterEvent) : List (List String) :=
  levelSegmentsAux es []

/-- The `(distance, filter generation)` pairs at which contrasts were
evaluated during a trace. -/
def evalRecords : List IterEvent → List (ℤ × ℕ)
  | [] => []
  | IterEvent.evaluated _ _ _ d g :: es => (d, g) :: evalRecords es
  | _ :: es => evalRecords es

/-- Decimal parser used to invert `Nat.repr` on the channel range. -/
def parseNat (cs : List Char) : ℕ :=
  cs.foldl (fun acc c => acc * 10 + (c.toNat - 48)) 0

/-- Channels of a catalog color are integers in `[0, 255]`. -/
def ChannelBounded (c : Color) : Prop := c.r ≤ 255 ∧ c.g ≤ 255 ∧ c.b ≤ 255

instance (c : Color) : Decidable (ChannelBounded c) := by
  unfold ChannelBounded; infer_instance

/-- Sample color for concrete witnesses. -/
def demoColorA : Color := ⟨10, 10, 10, 1, 5⟩

/-- Second sample color; contrast against `demoColorA` is `1 < 4.5`. -/
def demoColorB : Color := ⟨20, 20, 20, 1, 4⟩

/-- Third sample color; contrast against `demoColorA` is `21 ≥ 4.5`. -/
def demoColorC : Color := ⟨240, 240, 240, 0, 0⟩

/-- A small concrete environment: a three-step lightness table, one color per
bucket, and an exact membership test. -/
def demoEnv : SearchEnv where
  lightnessValues := fun z =>
    if z = 0 then some 5 else if z = 1 then some 4
    else if z = 2 then some 0 else none
  colorsByLightness := fun l =>
    if l = 5 then [demoColorA] else if l = 4 then [demoColorB]
    else if l = 0 then [demoColorC] else []
  hasKey := fun s k => decide (k ∈ s)

/-- Initial state used by concrete witnesses. -/
def demoState : TestState := ⟨1, 0, 0, 0, ∅⟩

/-- State after the witness escalation step. -/
def demoState1 : TestState := ⟨2, 0, 1, 1, ∅⟩

/-- State whose distance exceeds the whole 0–1000 scale. -/
def demoStateInfeasible : TestState := ⟨1001, 0, 0, 0, ∅⟩

/-- D65 chromaticity `X_FACTOR` from the precompute script. -/
noncomputable def xFactor : ℝ := 0.3127 / 0.329

/-- D65 chromaticity `Z_FACTOR` from the precompute script. -/
noncomputable def zFactor : ℝ := (1 - 0.3127 - 0.329) / 0.329

/-- Toe constant `K1`. -/
noncomputable def toeK1 : ℝ := 0.206

/-- Toe constant `K2`. -/
noncomputable def toeK2 : ℝ := 0.03

/-- Toe constant `K3`. -/
noncomputable def toeK3 : ℝ := (1 + 0.206) / (1 + 0.03)

/-- Mirrors `scaleToContrast`: exponential interpolation from contrast 1 at
step 0 to contrast 21 at step 1000. -/
noncomputable def scaleToContrast (scaleValue : ℝ) : ℝ :=
  Real.exp (Real.log 21 * (scaleValue / 1000))

/-- The computation performed by `reverseWCAGContrast` after its validation:
invert the WCAG contrast formula against reference luminance `y` and clamp
the result to `[0, 1]`. -/
noncomputable def reverseWCAGContrastRun (contrast y : ℝ) : ℝ :=
  let output := if y > 0.18 then (y + 0.05) / contrast - 0.05
                else contrast * (y + 0.05) - 0.05
  max 0 (min 1 output)

/-- Mirrors `reverseWCAGContrast` including its two defensive validation
throws, modelled as `Except.error`. -/
noncomputable def reverseWCAGContrast (contrast y : ℝ) : Except String ℝ :=
  if ¬ (0 ≤ y ∧ y ≤ 1) then Except.error "Invalid luminance value"
  else if ¬ (1 ≤ contrast ∧ contrast ≤ 21) then Except.error "Invalid contrast ratio"
  else Except.ok (reverseWCAGContrastRun contrast y)

/-- JS `Math.cbrt`: the real cube root as the odd extension of `x ^ (1/3)`. -/
noncomputable def jsCbrt (x : ℝ) : ℝ :=
  if x < 0 then -((-x) ^ ((1 : ℝ)/3)) else x ^ ((1 : ℝ)/3)

/-- Mirrors `yToOklabLightness`: Y to XYZ through the D65 white point, the
fixed XYZ-to-LMS matrix row sums clamped at zero, cube roots, and the first
row of the LMS-to-Oklab matrix. -/
noncomputable def yToOklabLightness (inputY : ℝ) : ℝ :=
  let X := xFactor * inputY
  let Y := inputY
  let Z := zFactor * inputY
  let l := max 0 (0.8189330101 * X + 0.3618667424 * Y + (-0.1288597137) * Z)
  let m := max 0 (0.0329845436 * X + 0.9293118715 * Y + 0.0361456387 * Z)
  let s := max 0 (0.0482003018 * X + 0.2643662691 * Y + 0.633851707 * Z)
  0.2104542553 * jsCbrt l + 0.793617785 * jsCbrt m + (-0.0040720468) * jsCbrt s

/-- Mirrors `toe`: the OKHSL toe remap of Oklab lightness. -/
noncomputable def toe (L : ℝ) : ℝ :=
  let k3L_m_k1 := toeK3 * L - toeK1
  0.5 * (k3L_m_k1 + Real.sqrt (k3L_m_k1 * k3L_m_k1 + 4 * toeK2 * toeK3 * L))

/-- Mirrors `yToOkhslLightness`. -/
noncomputable def yToOkhslLightness (inputY : ℝ) : ℝ := toe (yToOklabLightness inputY)

/-- Mirrors `computeLightness`, propagating the defensive validation. -/
noncomputable def computeLightness (step : ℕ) : Except String ℝ :=
  (reverseWCAGContrast (scaleToContrast step) 1).map yToOkhslLightness

/-- The raw lightness computed at a step when validation passes. -/
noncomputable def rawLightness (step : ℕ) : ℝ :=
  yToOkhslLightness (reverseWCAGContrastRun (scaleToContrast step) 1)

/-- JS `Math.round` on reals. -/
noncomputable def jsRoundR (x : ℝ) : ℝ := ⌊x + 1/2⌋

/-- The entry `computeAllLightnessValues` stores for a step:
`Math.round(lightness * 100) / 100`. -/
noncomputable def lightnessTableValue (step : ℕ) : ℝ :=
  jsRoundR (rawLightness step * 100) / 100

/-- Slope of the `l` cone response in the luminance `Y`. -/
noncomputable def lmsCoefL : ℝ :=
  0.8189330101 * xFactor + 0.3618667424 + (-0.1288597137) * zFactor

/-- Slope of the `m` cone response in the luminance `Y`. -/
noncomputable def lmsCoefM : ℝ :=
  0.0329845436 * xFactor + 0.9293118715 + 0.0361456387 * zFactor

/-- Slope of the `s` cone response in the luminance `Y`. -/
noncomputable def lmsCoefS : ℝ :=
  0.0482003018 * xFactor + 0.2643662691 + 0.633851707 * zFactor

/-- Slope of the Oklab lightness in the cube root of the luminance. -/
noncomputable def oklabSlope : ℝ :=
  0.2104542553 * lmsCoefL ^ ((1 : ℝ)/3) + 0.793617785 * lmsCoefM ^ ((1 : ℝ)/3) +
    (-0.0040720468) * lmsCoefS ^ ((1 : ℝ)/3)

theorem bucketFor_none (env : SearchEnv) : bucketFor env none = [] := rfl

theorem pickColor_nil (i : ℕ) : pickColor [] i = none := rfl

theorem runIteration_cases (env : SearchEnv) (st : TestState) (r1 : ℤ) (i1 i2 : ℕ) :
    (runIteration env st r1 i1 i2 = (st, IterEvent.emptyBucket)) ∨
    (∃ k, runIteration env st r1 i1 i2 = (st, IterEvent.duplicateSkipped k) ∧
       env.hasKey st.testedCombinations k = true) ∨
    (∃ k c, env.hasKey st.testedCombinations k = false ∧
      ((runIteration env st r1 i1 i2 =
         (⟨st.distance, st.testCount + 1, st.totalTestsRun + 1, st.genId,
            insert k st.testedCombinations⟩,
          IterEvent.evaluated k c false st.distance st.genId) ∧ ¬ c < 9/2) ∨
       (runIteration env st r1 i1 i2 =
         (⟨st.distance + 1, 0, st.totalTestsRun + 1, st.genId + 1, ∅⟩,
          IterEvent.evaluated k c true st.distance st.genId) ∧ c < 9/2))) := by
  simp only [runIteration]
  cases pickColor (bucketFor env (env.lightnessValues r1)) i1 with
  | none => exact Or.inl rfl
  | some c1 =>
    cases pickColor (bucketFor env (env.lightnessValues (r1 + st.distance))) i2 with
    | none => exact Or.inl rfl
    | some c2 =>
      by_cases hk : env.hasKey st.testedCombinations (createColorPairKey c1 c2) = true
      · refine Or.inr (Or.inl ⟨createColorPairKey c1 c2, ?_, hk⟩)
        simp [hk]
      · simp only [Bool.not_eq_true] at hk
        by_cases hc : wcagLuminanceContrast c1.y c2.y < 9/2
        · refine Or.inr (Or.inr ⟨createColorPairKey c1 c2, wcagLuminanceContrast c1.y c2.y,
            hk, Or.inr ⟨?_, hc⟩⟩)
          simp [hk, hc]
        · refine Or.inr (Or.inr ⟨createColorPairKey c1 c2, wcagLuminanceContrast c1.y c2.y,
            hk, Or.inl ⟨?_, hc⟩⟩)
          simp [hk, hc]

theorem step_emptyBucket (env : SearchEnv) (st : TestState) (r1 : ℤ) (i1 i2 : ℕ)
    (h2 : env.lightnessValues (r1 + st.distance) = none) :
    runIteration env st r1 i1 i2 = (st, IterEvent.emptyBucket) := by
  simp only [runIteration, h2, bucketFor_none, pickColor_nil]
  cases pickColor (bucketFor env (env.lightnessValues r1)) i1 <;> rfl

theorem runIteration_eq_escalate (env : SearchEnv) (st : TestState) (r1 : ℤ) (i1 i2 : ℕ)
    (c1 c2 : Color)
    (h1 : pickColor (bucketFor env (env.lightnessValues r1)) i1 = some c1)
    (h2 : pickColor (bucketFor env (env.lightnessValues (r1 + st.distance))) i2 = some c2)
    (hk : env.hasKey st.testedCombinations (createColorPairKey c1 c2) = false)
    (hc : wcagLuminanceContrast c1.y c2.y < 9/2) :
    runIteration env st r1 i1 i2 =
      (⟨st.distance + 1, 0, st.totalTestsRun + 1, st.genId + 1, ∅⟩,
       IterEvent.evaluated (createColorPairKey c1 c2) (wcagLuminanceContrast c1.y c2.y)
         true st.distance st.genId) := by
  simp [runIteration, h1, h2, hk, hc]

theorem runIteration_eq_pass (env : SearchEnv) (st : TestState) (r1 : ℤ) (i1 i2 : ℕ)
    (c1 c2 : Color)
    (h1 : pickColor (bucketFor env (env.lightnessValues r1)) i1 = some c1)
    (h2 : pickColor (bucketFor env (env.lightnessValues (r1 + st.distance))) i2 = some c2)
    (hk : env.hasKey st.testedCombinations (createColorPairKey c1 c2) = false)
    (hc : ¬ wcagLuminanceContrast c1.y c2.y < 9/2) :
    runIteration env st r1 i1 i2 =
      (⟨st.distance, st.testCount + 1, st.totalTestsRun + 1, st.genId,
         insert (createColorPairKey c1 c2) st.testedCombinations⟩,
       IterEvent.evaluated (createColorPairKey c1 c2) (wcagLuminanceContrast c1.y c2.y)
         false st.distance st.genId) := by
  simp [runIteration, h1, h2, hk, hc]

theorem evalRecords_diff (env : SearchEnv) :
    ∀ (inputs : List (ℤ × ℕ × ℕ)) (st : TestState),
      ∀ p ∈ evalRecords (runLoop env st inputs).2,
        p.1 - (p.2 : ℤ) = st.distance - (st.genId : ℤ) := by
  intro inputs
  induction inputs with
  | nil => intro st p hp; simp [runLoop, evalRecords] at hp
  | cons input rest ih =>
    intro st p hp
    obtain ⟨r, i1, i2⟩ := input
    simp only [runLoop] at hp
    rcases runIteration_cases env st r i1 i2 with h1 | ⟨k, h1, -⟩ | ⟨k, c, -, ⟨h1, -⟩ | ⟨h1, -⟩⟩ <;>
        rw [h1] at hp <;> simp only [evalRecords, List.mem_cons] at hp <;>
      first
        | exact ih _ p hp
        | (rcases hp with rfl | hp
           · rfl
           · have h2 := ih _ p hp
             dsimp only at h2
             push_cast at h2 ⊢
             omega)

theorem infeasible_runLoop (env : SearchEnv) :
    ∀ (inputs : List (ℤ × ℕ × ℕ)) (st : TestState),
      (∀ z : ℤ, 1000 < z → env.lightnessValues z = none) →
      (∀ p ∈ inputs, 1000 < p.1 + st.distance) →
      (runLoop env st inputs).1 = st ∧
      ∀ e ∈ (runLoop env st inputs).2, e = IterEvent.emptyBucket := by
  intro inputs
  induction inputs with
  | nil => intro st _ _; exact ⟨rfl, by simp [runLoop]⟩
  | cons input rest ih =>
    intro st hsupp hin
    obtain ⟨r, i1, i2⟩ := input
    have hstep : runIteration env st r i1 i2 = (st, IterEvent.emptyBucket) :=
      step_emptyBucket env st r i1 i2 (hsupp _ (hin (r, i1, i2) (by simp)))
    have hrest := ih st hsupp (fun p hp => hin p (by simp [hp]))
    simp only [runLoop, hstep]
    refine ⟨hrest.1, ?_⟩
    intro e he
    simp only [List.mem_cons] at he
    rcases he with rfl | he
    · rfl
    · exact hrest.2 e he

theorem segmentsAux_nodup (env : SearchEnv)
    (hFN : ∀ (s : Finset String) (k : String), k ∈ s → env.hasKey s k = true) :
    ∀ (inputs : List (ℤ × ℕ × ℕ)) (st : TestState) (current : List String),
      current.Nodup → (∀ k ∈ current, k ∈ st.testedCombinations) →
      ∀ seg ∈ levelSegmentsAux (runLoop env st inputs).2 current, seg.Nodup := by
  intro inputs
  induction inputs with
  | nil =>
    intro st current hnd _ seg hseg
    simp only [runLoop, levelSegmentsAux, List.mem_singleton] at hseg
    exact hseg ▸ hnd
  | cons input rest ih =>
    intro st current hnd hsub seg hseg
    obtain ⟨r, i1, i2⟩ := input
    simp only [runLoop] at hseg
    rcases runIteration_cases env st r i1 i2 with h1 | ⟨k, h1, -⟩ | ⟨k, c, hk, ⟨h1, -⟩ | ⟨h1, -⟩⟩ <;>
      rw [h1] at hseg <;> simp only [levelSegmentsAux] at hseg
    · exact ih st current hnd hsub seg hseg
    · exact ih st current hnd hsub seg hseg
    · have hknotin : k ∉ st.testedCombinations := fun hmem => by
        rw [hFN _ _ hmem] at hk; exact Bool.true_eq_false.mp hk
      have hkcur : k ∉ current := fun hc => hknotin (hsub k hc)
      refine ih _ (current ++ [k]) ?_ ?_ seg hseg
      · simp [List.nodup_append, hnd, hkcur]
      · intro k' hk'
        simp only [List.mem_append, List.mem_singleton] at hk'
        rcases hk' with hk' | rfl
        · exact Finset.mem_insert_of_mem (hsub k' hk')
        · exact Finset.mem_insert_self _ _
    · have hknotin : k ∉ st.testedCombinations := fun hmem => by
        rw [hFN _ _ hmem] at hk; exact Bool.true_eq_false.mp hk
      have hkcur : k ∉ current := fun hc => hknotin (hsub k hc)
      simp only [List.mem_cons] at hseg
      rcases hseg with rfl | hseg
      · simp [List.nodup_append, hnd, hkcur]
      · exact ih _ [] List.nodup_nil (by simp) seg hseg

/-- C1: at a distance beyond the scale the source loop keeps discarding
iterations forever instead of terminating with a failure report: every
iteration leaves the state untouched (in particular `testCount`, which is the
only quantity the `while` guard consults, never advances). -/
theorem runContrastTests_lacks_infeasible_guard (env : SearchEnv)
    (inputs : List (ℤ × ℕ × ℕ)) (st : TestState)
    (hsupp : ∀ z : ℤ, 1000 < z → env.lightnessValues z = none)
    (hin : ∀ p ∈ inputs, 1000 < p.1 + st.distance) :
    (runLoop env st inputs).1 = st ∧
    ∀ e ∈ (runLoop env st inputs).2, e = IterEvent.emptyBucket :=
  infeasible_runLoop env inputs st hsupp hin

theorem runContrastTests_lacks_infeasible_guard_witness :
    (runLoop demoEnv demoStateInfeasible [(0, 0, 0)]).1 = demoStateInfeasible ∧
    ∀ e ∈ (runLoop demoEnv demoStateInfeasible [(0, 0, 0)]).2, e = IterEvent.emptyBucket :=
  runContrastTests_lacks_infeasible_guard demoEnv [(0, 0, 0)] demoStateInfeasible
    (fun z hz => by
      simp [demoEnv, show z ≠ 0 by omega, show z ≠ 1 by omega, show z ≠ 2 by omega])
    (by decide)

/-- C4: with a seen-set that never reports a false negative, the keys passed
to the contrast evaluator within any single distance level are pairwise
distinct. -/
theorem seenSet_prevents_reevaluation (env : SearchEnv) (st : TestState)
    (inputs : List (ℤ × ℕ × ℕ))
    (hFN : ∀ (s : Finset String) (k : String), k ∈ s → env.hasKey s k = true) :
    ∀ seg ∈ levelSegments (runLoop env st inputs).2, seg.Nodup :=
  fun seg hseg =>
    segmentsAux_nodup env hFN inputs st [] List.nodup_nil (by simp) seg hseg

theorem seenSet_prevents_reevaluation_witness :
    List.Nodup ["10,10,10|20,20,20"] := by
  have hesc : runIteration demoEnv demoState 0 0 0 =
      (⟨2, 0, 1, 1, ∅⟩,
       IterEvent.evaluated (createColorPairKey demoColorA demoColorB)
         (wcagLuminanceContrast demoColorA.y demoColorB.y) true 1 0) := by
    rw [runIteration_eq_escalate demoEnv demoState 0 0 0 demoColorA demoColorB rfl rfl rfl
      (by norm_num [wcagLuminanceContrast, demoColorA, demoColorB])]
    rfl
  have hpass : runIteration demoEnv (⟨2, 0, 1, 1, ∅⟩ : TestState) 0 0 0 =
      (⟨2, 1, 2, 1, {createColorPairKey demoColorA demoColorC}⟩,
       IterEvent.evaluated (createColorPairKey demoColorA demoColorC)
         (wcagLuminanceContrast demoColorA.y demoColorC.y) false 2 1) := by
    rw [runIteration_eq_pass demoEnv (⟨2, 0, 1, 1, ∅⟩ : TestState) 0 0 0 demoColorA demoColorC
      rfl rfl rfl (by norm_num [wcagLuminanceContrast, demoColorA, demoColorC])]
    rfl
  refine seenSet_prevents_reevaluation demoEnv demoState [(0, 0, 0), (0, 0, 0)]
    (fun s k hmem => decide_eq_true hmem) ["10,10,10|20,20,20"] ?_
  have : createColorPairKey demoColorA demoColorB = "10,10,10|20,20,20" := rfl
  simp [runLoop, hesc, hpass, levelSegments, levelSegmentsAux, this]

/-- C5: a failed contrast test escalates the whole state in the same
iteration — distance is incremented by exactly one, `testCount` is reset to
zero and the seen-set is replaced by a fresh empty instance — and no two
evaluations at different distances ever share a seen-set instance. -/
theorem contrast_failure_escalates_atomically (env : SearchEnv) :
    (∀ (st : TestState) (r1 : ℤ) (i1 i2 : ℕ) (k : String) (c : ℚ) (d : ℤ) (g : ℕ),
      (runIteration env st r1 i1 i2).2 = IterEvent.evaluated k c true d g →
      (runIteration env st r1 i1 i2).1 =
        ⟨st.distance + 1, 0, st.totalTestsRun + 1, st.genId + 1, (∅ : Finset String)⟩) ∧
    (∀ (st : TestState) (inputs : List (ℤ × ℕ × ℕ)) (p q : ℤ × ℕ),
      p ∈ evalRecords (runLoop env st inputs).2 →
      q ∈ evalRecords (runLoop env st inputs).2 → p.1 ≠ q.1 → p.2 ≠ q.2) := by
  constructor
  · intro st r1 i1 i2 k c d g h
    rcases runIteration_cases env st r1 i1 i2 with h1 | ⟨k', h1, -⟩ |
        ⟨k', c', -, ⟨h1, -⟩ | ⟨h1, -⟩⟩ <;> rw [h1] at h ⊢ <;> simp at h ⊢
  · intro st inputs p q hp hq hne heq
    have h1 := evalRecords_diff env inputs st p hp
    have h2 := evalRecords_diff env inputs st q hq
    exact hne (by omega)

theorem contrast_failure_escalates_atomically_witness :
    (runIteration demoEnv demoState 0 0 0).1 =
      ⟨demoState.distance + 1, 0, demoState.totalTestsRun + 1, demoState.genId + 1,
        (∅ : Finset String)⟩ ∧
    ((1 : ℤ), (0 : ℕ)).2 ≠ ((2 : ℤ), (1 : ℕ)).2 := by
  have hesc : runIteration demoEnv demoState 0 0 0 =
      (⟨2, 0, 1, 1, ∅⟩,
       IterEvent.evaluated (createColorPairKey demoColorA demoColorB)
         (wcagLuminanceContrast demoColorA.y demoColorB.y) true 1 0) := by
    rw [runIteration_eq_escalate demoEnv demoState 0 0 0 demoColorA demoColorB rfl rfl rfl
      (by norm_num [wcagLuminanceContrast, demoColorA, demoColorB])]
    rfl
  have hpass : runIteration demoEnv (⟨2, 0, 1, 1, ∅⟩ : TestState) 0 0 0 =
      (⟨2, 1, 2, 1, {createColorPairKey demoColorA demoColorC}⟩,
       IterEvent.evaluated (createColorPairKey demoColorA demoColorC)
         (wcagLuminanceContrast demoColorA.y demoColorC.y) false 2 1) := by
    rw [runIteration_eq_pass demoEnv (⟨2, 0, 1, 1, ∅⟩ : TestState) 0 0 0 demoColorA demoColorC
      rfl rfl rfl (by norm_num [wcagLuminanceContrast, demoColorA, demoColorC])]
    rfl
  constructor
  · exact (contrast_failure_escalates_atomically demoEnv).1 demoState 0 0 0
      (createColorPairKey demoColorA demoColorB)
      (wcagLuminanceContrast demoColorA.y demoColorB.y) 1 0 (by rw [hesc])
  · exact (contrast_failure_escalates_atomically demoEnv).2 demoState
      [(0, 0, 0), (0, 0, 0)] (1, 0) (2, 1)
      (by simp [runLoop, hesc, hpass, evalRecords])
      (by simp [runLoop, hesc, hpass, evalRecords]) (by decide)

/-- C8: a discarded iteration — an empty sampled bucket or a seen-set hit —
leaves distance, `testCount`, `totalTestsRun` and the seen-set contents
unchanged. -/
theorem discarded_iteration_preserves_state (env : SearchEnv) (st : TestState)
    (r1 : ℤ) (i1 i2 : ℕ)
    (h : (runIteration env st r1 i1 i2).2 = IterEvent.emptyBucket ∨
         ∃ k, (runIteration env st r1 i1 i2).2 = IterEvent.duplicateSkipped k) :
    (runIteration env st r1 i1 i2).1.distance = st.distance ∧
    (runIteration env st r1 i1 i2).1.testCount = st.testCount ∧
    (runIteration env st r1 i1 i2).1.totalTestsRun = st.totalTestsRun ∧
    (runIteration env st r1 i1 i2).1.testedCombinations = st.testedCombinations := by
  rcases runIteration_cases env st r1 i1 i2 with h1 | ⟨k, h1, -⟩ | ⟨k, c, -, ⟨h1, -⟩ | ⟨h1, -⟩⟩
  · simp [h1]
  · simp [h1]
  · rw [h1] at h; rcases h with h | ⟨k', h⟩ <;> simp at h
  · rw [h1] at h; rcases h with h | ⟨k', h⟩ <;> simp at h

theorem discarded_iteration_preserves_state_witness :
    (runIteration demoEnv demoState 5 0 0).1.distance = demoState.distance ∧
    (runIteration demoEnv demoState 5 0 0).1.testCount = demoState.testCount ∧
    (runIteration demoEnv demoState 5 0 0).1.totalTestsRun = demoState.totalTestsRun ∧
    (runIteration demoEnv demoState 5 0 0).1.testedCombinations = demoState.testedCombinations :=
  discarded_iteration_preserves_state demoEnv demoState 5 0 0
    (Or.inl (by rw [step_emptyBucket demoEnv demoState 5 0 0 rfl]))

theorem jsRound_eq_of_bounds (q : ℚ) (n : ℤ) (h1 : (n : ℚ) ≤ q + 1/2) (h2 : q + 1/2 < n + 1) :
    jsRound q = n := by
  unfold jsRound
  exact Int.floor_eq_iff.mpr ⟨h1, h2⟩

theorem jsRound_le_of_lt (q : ℚ) (n : ℤ) (h : q + 1/2 < (n : ℚ) + 1) : jsRound q ≤ n := by
  unfold jsRound
  have := Int.floor_lt.mpr (show q + 1/2 < ((n + 1 : ℤ) : ℚ) by push_cast; linarith)
  omega

theorem jsRound_nonneg (q : ℚ) (h : 0 ≤ q + 1/2) : 0 ≤ jsRound q := by
  unfold jsRound
  exact Int.le_floor.mpr (by push_cast; linarith)

theorem roundLightness_below_threshold (q : ℚ) (h : q < 995/1000) :
    roundLightness q = (jsRound (q * 100) : ℚ) / 100 := by
  rw [roundLightness, if_neg (by push_neg; intro; linarith), if_neg (by linarith)]

/-- C2 counterexample: the table builder's rounding sends the raw value
`0.996 ∈ [0.995, 1)` to `1.00`, not to `0.99` as the claim states. -/
theorem tableBuilderRound_no_near_white_case :
    (995/1000 : ℚ) ≤ 996/1000 ∧ (996/1000 : ℚ) < 1 ∧
    tableBuilderRound (996/1000) = 1 ∧ tableBuilderRound (996/1000) ≠ 99/100 := by
  have h : jsRound ((996/1000 : ℚ) * 100) = 100 :=
    jsRound_eq_of_bounds _ 100 (by norm_num) (by norm_num)
  refine ⟨by norm_num, by norm_num, ?_, ?_⟩ <;> rw [tableBuilderRound, h] <;> norm_num

/-- C2 (amended): the table builder rounds every raw value in `[0.995, 1)` up
to `1.00`, with no special case; the near-white special case — `[0.995, 1)`
to `0.99` and `[1, ∞)` to `1.00` — is implemented by `roundLightness` in the
catalog generator, not by the Lightness Table Builder. -/
theorem near_white_rounding_is_in_catalog_generator (q : ℚ) :
    (995/1000 ≤ q → q < 1 → tableBuilderRound q = 1 ∧ roundLightness q = 99/100) ∧
    (1 ≤ q → roundLightness q = 1) := by
  constructor
  · intro hlo hhi
    constructor
    · have h : jsRound (q * 100) = 100 :=
        jsRound_eq_of_bounds _ 100 (by push_cast; linarith) (by push_cast; linarith)
      rw [tableBuilderRound, h]; norm_num
    · rw [roundLightness, if_pos ⟨hlo, hhi⟩]
  · intro h1
    rw [roundLightness, if_neg (by push_neg; intro; linarith), if_pos h1]

theorem near_white_rounding_is_in_catalog_generator_witness :
    (tableBuilderRound (996/1000) = 1 ∧ roundLightness (996/1000) = 99/100) ∧
    roundLightness (12/10) = 1 :=
  ⟨(near_white_rounding_is_in_catalog_generator (996/1000)).1 (by norm_num) (by norm_num),
   (near_white_rounding_is_in_catalog_generator (12/10)).2 (by norm_num)⟩

/-- C10: the catalog generator's quantization never puts a non-white
lightness in the pure-white bucket: inputs below `1` land at or below `0.99`,
the output is `1.00` exactly when the input is at least `1`, and inputs in
`[0, 1]` produce outputs in `[0, 1]`. -/
theorem roundLightness_white_bucket_exact (q : ℚ) :
    (0 ≤ q → q < 1 → roundLightness q ≤ 99/100) ∧
    (roundLightness q = 1 ↔ 1 ≤ q) ∧
    (0 ≤ q → q ≤ 1 → 0 ≤ roundLightness q ∧ roundLightness q ≤ 1) := by
  have hle : q < 1 → roundLightness q ≤ 99/100 := by
    intro hq1
    by_cases hb1 : 995/1000 ≤ q
    · rw [roundLightness, if_pos ⟨hb1, hq1⟩]
    · have hlt : q < 995/1000 := not_le.mp hb1
      rw [roundLightness_below_threshold q hlt]
      have h99 : jsRound (q * 100) ≤ 99 := jsRound_le_of_lt _ 99 (by push_cast; linarith)
      have : (jsRound (q * 100) : ℚ) ≤ 99 := by exact_mod_cast h99
      linarith
  refine ⟨fun _ => hle, ⟨?_, ?_⟩, fun h0 h1 => ⟨?_, ?_⟩⟩
  · intro heq
    by_contra hq1
    have := hle (not_le.mp hq1)
    rw [heq] at this
    norm_num at this
  · intro h1
    rw [roundLightness, if_neg (by push_neg; intro; linarith), if_pos h1]
  · by_cases hb1 : 995/1000 ≤ q
    · by_cases hq1 : q < 1
      · rw [roundLightness, if_pos ⟨hb1, hq1⟩]; norm_num
      · rw [roundLightness, if_neg (by push_neg; intro; linarith), if_pos (not_lt.mp hq1)]
        norm_num
    · have hlt : q < 995/1000 := not_le.mp hb1
      rw [roundLightness_below_threshold q hlt]
      have h0' : 0 ≤ jsRound (q * 100) := jsRound_nonneg _ (by linarith)
      have : (0 : ℚ) ≤ (jsRound (q * 100) : ℚ) := by exact_mod_cast h0'
      positivity
  · rcases lt_or_ge q 1 with hq1 | hq1
    · linarith [hle hq1]
    · rw [roundLightness, if_neg (by push_neg; intro; linarith), if_pos hq1]

theorem roundLightness_white_bucket_exact_witness :
    roundLightness (1/2) ≤ 99/100 ∧
    (roundLightness (12/10) = 1 ↔ 1 ≤ (12/10 : ℚ)) ∧
    (0 ≤ roundLightness (1/2) ∧ roundLightness (1/2) ≤ 1) :=
  ⟨(roundLightness_white_bucket_exact (1/2)).1 (by norm_num) (by norm_num),
   (roundLightness_white_bucket_exact (12/10)).2.1,
   (roundLightness_white_bucket_exact (1/2)).2.2 (by norm_num) (by norm_num)⟩

theorem parseNat_repr : ∀ n : Fin 256, parseNat (Nat.repr n.1).data = n.1 := by decide

theorem repr_sep_free : ∀ n : Fin 256,
    ',' ∉ (Nat.repr n.1).data ∧ '|' ∉ (Nat.repr n.1).data := by decide

theorem repr_data_inj (a b : ℕ) (ha : a ≤ 255) (hb : b ≤ 255)
    (h : (Nat.repr a).data = (Nat.repr b).data) : a = b := by
  have h1 := parseNat_repr ⟨a, by omega⟩
  have h2 := parseNat_repr ⟨b, by omega⟩
  simp only at h1 h2
  rw [h] at h1
  omega

theorem append_sep_eq (sep : Char) :
    ∀ (a1 a2 b1 b2 : List Char), sep ∉ a1 → sep ∉ a2 →
      a1 ++ sep :: b1 = a2 ++ sep :: b2 → a1 = a2 ∧ b1 = b2 := by
  intro a1
  induction a1 with
  | nil =>
    intro a2 b1 b2 _ h2 heq
    cases a2 with
    | nil => simpa using heq
    | cons c a2' =>
      simp only [List.nil_append, List.cons_append, List.cons.injEq] at heq
      obtain ⟨rfl, -⟩ := heq
      exact absurd (List.mem_cons_self _ _) h2
  | cons c a1' ih =>
    intro a2 b1 b2 h1 h2 heq
    cases a2 with
    | nil =>
      simp only [List.cons_append, List.nil_append, List.cons.injEq] at heq
      obtain ⟨rfl, -⟩ := heq
      exact absurd (List.mem_cons_self _ _) h1
    | cons d a2' =>
      simp only [List.cons_append, List.cons.injEq] at heq
      obtain ⟨rfl, heq'⟩ := heq
      have hr := ih a2' b1 b2 (fun h => h1 (List.mem_cons_of_mem _ h))
        (fun h => h2 (List.mem_cons_of_mem _ h)) heq'
      exact ⟨by rw [hr.1], hr.2⟩

theorem colorTriple_data (x : Color) :
    (colorTriple x).data =
      (Nat.repr x.r).data ++ ',' :: ((Nat.repr x.g).data ++ ',' :: (Nat.repr x.b).data) := by
  simp [colorTriple, String.data_append]

theorem comma_not_mem_repr (n : ℕ) (hn : n ≤ 255) : ',' ∉ (Nat.repr n).data :=
  (repr_sep_free ⟨n, by omega⟩).1

theorem pipe_not_mem_repr (n : ℕ) (hn : n ≤ 255) : '|' ∉ (Nat.repr n).data :=
  (repr_sep_free ⟨n, by omega⟩).2

theorem pipe_not_mem_triple (x : Color) (hx : ChannelBounded x) :
    '|' ∉ (colorTriple x).data := by
  obtain ⟨hr, hg, hb⟩ := hx
  rw [colorTriple_data]
  intro hmem
  simp only [List.mem_append, List.mem_cons] at hmem
  rcases hmem with h | h | h | h | h
  · exact pipe_not_mem_repr _ hr h
  · exact absurd h (by decide)
  · exact pipe_not_mem_repr _ hg h
  · exact absurd h (by decide)
  · exact pipe_not_mem_repr _ hb h

theorem colorTriple_inj (x y : Color) (hx : ChannelBounded x) (hy : ChannelBounded y)
    (h : colorTriple x = colorTriple y) : x.r = y.r ∧ x.g = y.g ∧ x.b = y.b := by
  obtain ⟨hxr, hxg, hxb⟩ := hx
  obtain ⟨hyr, hyg, hyb⟩ := hy
  have hd := congrArg String.data h
  rw [colorTriple_data, colorTriple_data] at hd
  obtain ⟨h1, h2⟩ := append_sep_eq ',' _ _ _ _
    (comma_not_mem_repr _ hxr) (comma_not_mem_repr _ hyr) hd
  obtain ⟨h3, h4⟩ := append_sep_eq ',' _ _ _ _
    (comma_not_mem_repr _ hxg) (comma_not_mem_repr _ hyg) h2
  exact ⟨repr_data_inj _ _ hxr hyr h1, repr_data_inj _ _ hxg hyg h3,
    repr_data_inj _ _ hxb hyb h4⟩

theorem pairKey_components (x1 x2 y1 y2 : Color)
    (hx1 : ChannelBounded x1) (hx2 : ChannelBounded x2)
    (hy1 : ChannelBounded y1) (hy2 : ChannelBounded y2)
    (h : colorTriple x1 ++ "|" ++ colorTriple x2 = colorTriple y1 ++ "|" ++ colorTriple y2) :
    (x1.r = y1.r ∧ x1.g = y1.g ∧ x1.b = y1.b) ∧
    (x2.r = y2.r ∧ x2.g = y2.g ∧ x2.b = y2.b) := by
  have hd := congrArg String.data h
  simp only [String.data_append] at hd
  rw [List.append_assoc, List.append_assoc] at hd
  have hd' : (colorTriple x1).data ++ '|' :: (colorTriple x2).data =
      (colorTriple y1).data ++ '|' :: (colorTriple y2).data := by
    simpa using hd
  obtain ⟨h1, h2⟩ := append_sep_eq '|' _ _ _ _
    (pipe_not_mem_triple x1 hx1) (pipe_not_mem_triple y1 hy1) hd'
  exact ⟨colorTriple_inj _ _ hx1 hy1 (String.ext h1),
    colorTriple_inj _ _ hx2 hy2 (String.ext h2)⟩

theorem createColorPairKey_def (c1 c2 : Color) :
    createColorPairKey c1 c2 =
      if rgbToNumericValue c1 ≤ rgbToNumericValue c2
      then colorTriple c1 ++ "|" ++ colorTriple c2
      else colorTriple c2 ++ "|" ++ colorTriple c1 := by
  simp only [createColorPairKey]
  split <;> rfl

theorem rgbVal_inj (x y : Color) (hx : ChannelBounded x) (hy : ChannelBounded y)
    (h : rgbToNumericValue x = rgbToNumericValue y) :
    x.r = y.r ∧ x.g = y.g ∧ x.b = y.b := by
  obtain ⟨hxr, hxg, hxb⟩ := hx
  obtain ⟨hyr, hyg, hyb⟩ := hy
  unfold rgbToNumericValue at h
  omega

theorem colorTriple_congr (x y : Color) (hr : x.r = y.r) (hg : x.g = y.g) (hb : x.b = y.b) :
    colorTriple x = colorTriple y := by
  rw [colorTriple, colorTriple, hr, hg, hb]

/-- C7: the canonical pair key is symmetric in its two color arguments,
because the colors are ordered by their `r*65536 + g*256 + b` encoding before
the key string is assembled. -/
theorem createColorPairKey_symmetric (c1 c2 : Color)
    (h1 : ChannelBounded c1) (h2 : ChannelBounded c2) :
    createColorPairKey c1 c2 = createColorPairKey c2 c1 := by
  rw [createColorPairKey_def, createColorPairKey_def]
  rcases lt_trichotomy (rgbToNumericValue c1) (rgbToNumericValue c2) with hlt | heq | hgt
  · rw [if_pos hlt.le, if_neg (not_le.mpr hlt)]
  · obtain ⟨hr, hg, hb⟩ := rgbVal_inj c1 c2 h1 h2 heq
    rw [if_pos heq.le, if_pos heq.ge, colorTriple_congr c1 c2 hr hg hb]
  · rw [if_neg (not_le.mpr hgt), if_pos hgt.le]

theorem createColorPairKey_symmetric_witness :
    createColorPairKey demoColorA demoColorB = createColorPairKey demoColorB demoColorA :=
  createColorPairKey_symmetric demoColorA demoColorB (by decide) (by decide)

/-- C9: the canonical pair key identifies exactly the unordered pair of
`(r, g, b)` triples: two keys coincide precisely when the two color pairs
agree as unordered pairs of channel triples. -/
theorem createColorPairKey_injective_unordered (a b c d : Color)
    (ha : ChannelBounded a) (hb : ChannelBounded b)
    (hc : ChannelBounded c) (hd : ChannelBounded d) :
    createColorPairKey a b = createColorPairKey c d ↔
      ((a.r, a.g, a.b) = (c.r, c.g, c.b) ∧ (b.r, b.g, b.b) = (d.r, d.g, d.b)) ∨
      ((a.r, a.g, a.b) = (d.r, d.g, d.b) ∧ (b.r, b.g, b.b) = (c.r, c.g, c.b)) := by
  constructor
  · intro h
    rw [createColorPairKey_def, createColorPairKey_def] at h
    by_cases h1 : rgbToNumericValue a ≤ rgbToNumericValue b
    · by_cases h2 : rgbToNumericValue c ≤ rgbToNumericValue d
      · rw [if_pos h1, if_pos h2] at h
        obtain ⟨p, q⟩ := pairKey_components a b c d ha hb hc hd h
        exact Or.inl ⟨by simp [p.1, p.2.1, p.2.2], by simp [q.1, q.2.1, q.2.2]⟩
      · rw [if_pos h1, if_neg h2] at h
        obtain ⟨p, q⟩ := pairKey_components a b d c ha hb hd hc h
        exact Or.inr ⟨by simp [p.1, p.2.1, p.2.2], by simp [q.1, q.2.1, q.2.2]⟩
    · by_cases h2 : rgbToNumericValue c ≤ rgbToNumericValue d
      · rw [if_neg h1, if_pos h2] at h
        obtain ⟨p, q⟩ := pairKey_components b a c d hb ha hc hd h
        exact Or.inr ⟨by simp [q.1, q.2.1, q.2.2], by simp [p.1, p.2.1, p.2.2]⟩
      · rw [if_neg h1, if_neg h2] at h
        obtain ⟨p, q⟩ := pairKey_components b a d c hb ha hd hc h
        exact Or.inl ⟨by simp [q.1, q.2.1, q.2.2], by simp [p.1, p.2.1, p.2.2]⟩
  · intro h
    rcases h with ⟨hac, hbd⟩ | ⟨had, hbc⟩
    · simp only [Prod.mk.injEq] at hac hbd
      have hvac : rgbToNumericValue a = rgbToNumericValue c := by
        unfold rgbToNumericValue; rw [hac.1, hac.2.1, hac.2.2]
      have hvbd : rgbToNumericValue b = rgbToNumericValue d := by
        unfold rgbToNumericValue; rw [hbd.1, hbd.2.1, hbd.2.2]
      rw [createColorPairKey_def, createColorPairKey_def, hvac, hvbd,
        colorTriple_congr a c hac.1 hac.2.1 hac.2.2,
        colorTriple_congr b d hbd.1 hbd.2.1 hbd.2.2]
    · simp only [Prod.mk.injEq] at had hbc
      have hvad : rgbToNumericValue a = rgbToNumericValue d := by
        unfold rgbToNumericValue; rw [had.1, had.2.1, had.2.2]
      have hvbc : rgbToNumericValue b = rgbToNumericValue c := by
        unfold rgbToNumericValue; rw [hbc.1, hbc.2.1, hbc.2.2]
      rw [createColorPairKey_def, createColorPairKey_def, hvad, hvbc,
        colorTriple_congr a d had.1 had.2.1 had.2.2,
        colorTriple_congr b c hbc.1 hbc.2.1 hbc.2.2]
      rcases lt_trichotomy (rgbToNumericValue c) (rgbToNumericValue d) with hlt | heq | hgt
      · rw [if_neg (not_le.mpr hlt), if_pos hlt.le]
      · obtain ⟨hr, hg, hb'⟩ := rgbVal_inj c d hc hd heq
        rw [colorTriple_congr c d hr hg hb', if_pos heq.ge, if_pos heq.le]
      · rw [if_pos hgt.le, if_neg (not_le.mpr hgt)]

theorem createColorPairKey_injective_unordered_witness :
    createColorPairKey demoColorA demoColorB = createColorPairKey demoColorB demoColorA ↔
      ((demoColorA.r, demoColorA.g, demoColorA.b) = (demoColorB.r, demoColorB.g, demoColorB.b) ∧
       (demoColorB.r, demoColorB.g, demoColorB.b) = (demoColorA.r, demoColorA.g, demoColorA.b)) ∨
      ((demoColorA.r, demoColorA.g, demoColorA.b) = (demoColorA.r, demoColorA.g, demoColorA.b) ∧
       (demoColorB.r, demoColorB.g, demoColorB.b) = (demoColorB.r, demoColorB.g, demoColorB.b)) :=
  createColorPairKey_injective_unordered demoColorA demoColorB demoColorB demoColorA
    (by decide) (by decide) (by decide) (by decide)

theorem lmsCoefL_nonneg : 0 ≤ lmsCoefL := by
  unfold lmsCoefL xFactor zFactor; norm_num

theorem lmsCoefM_nonneg : 0 ≤ lmsCoefM := by
  unfold lmsCoefM xFactor zFactor; norm_num

theorem lmsCoefS_nonneg : 0 ≤ lmsCoefS := by
  unfold lmsCoefS xFactor zFactor; norm_num

theorem lmsCoefM_lower : (729 : ℝ)/1000 ≤ lmsCoefM := by
  unfold lmsCoefM xFactor zFactor; norm_num

theorem lmsCoefS_upper : lmsCoefS ≤ 8 := by
  unfold lmsCoefS xFactor zFactor; norm_num

theorem cube_rpow_third (a : ℝ) (ha : 0 ≤ a) : (a ^ (3 : ℕ)) ^ ((1 : ℝ)/3) = a := by
  rw [← Real.rpow_natCast a 3, ← Real.rpow_mul ha]
  norm_num

theorem jsCbrt_of_nonneg (x : ℝ) (hx : 0 ≤ x) : jsCbrt x = x ^ ((1 : ℝ)/3) := by
  rw [jsCbrt, if_neg (not_lt.mpr hx)]

theorem oklabSlope_nonneg : 0 ≤ oklabSlope := by
  have h1 : (0 : ℝ) ≤ 0.2104542553 * lmsCoefL ^ ((1 : ℝ)/3) :=
    mul_nonneg (by norm_num) (Real.rpow_nonneg lmsCoefL_nonneg _)
  have h2 : (9 : ℝ)/10 ≤ lmsCoefM ^ ((1 : ℝ)/3) := by
    calc (9 : ℝ)/10 = (((9 : ℝ)/10) ^ (3 : ℕ)) ^ ((1 : ℝ)/3) :=
          (cube_rpow_third _ (by norm_num)).symm
      _ ≤ lmsCoefM ^ ((1 : ℝ)/3) := by
          apply Real.rpow_le_rpow (by norm_num) ?_ (by norm_num)
          calc ((9 : ℝ)/10) ^ (3 : ℕ) = 729/1000 := by norm_num
            _ ≤ lmsCoefM := lmsCoefM_lower
  have h3 : lmsCoefS ^ ((1 : ℝ)/3) ≤ 2 := by
    calc lmsCoefS ^ ((1 : ℝ)/3) ≤ ((2 : ℝ) ^ (3 : ℕ)) ^ ((1 : ℝ)/3) := by
          apply Real.rpow_le_rpow lmsCoefS_nonneg ?_ (by norm_num)
          calc lmsCoefS ≤ 8 := lmsCoefS_upper
            _ = (2 : ℝ) ^ (3 : ℕ) := by norm_num
      _ = 2 := cube_rpow_third _ (by norm_num)
  have h2' := mul_le_mul_of_nonneg_left h2 (show (0:ℝ) ≤ 0.793617785 by norm_num)
  have h3' := mul_le_mul_of_nonneg_left h3 (show (0:ℝ) ≤ 0.0040720468 by norm_num)
  unfold oklabSlope
  nlinarith [h1, h2', h3']

theorem yToOklab_factored (Y : ℝ) (hY : 0 ≤ Y) :
    yToOklabLightness Y = oklabSlope * Y ^ ((1 : ℝ)/3) := by
  simp only [yToOklabLightness]
  have hl : max 0 (0.8189330101 * (xFactor * Y) + 0.3618667424 * Y +
      (-0.1288597137) * (zFactor * Y)) = lmsCoefL * Y := by
    rw [show 0.8189330101 * (xFactor * Y) + 0.3618667424 * Y +
        (-0.1288597137) * (zFactor * Y) = lmsCoefL * Y from by unfold lmsCoefL; ring]
    exact max_eq_right (mul_nonneg lmsCoefL_nonneg hY)
  have hm : max 0 (0.0329845436 * (xFactor * Y) + 0.9293118715 * Y +
      0.0361456387 * (zFactor * Y)) = lmsCoefM * Y := by
    rw [show 0.0329845436 * (xFactor * Y) + 0.9293118715 * Y +
        0.0361456387 * (zFactor * Y) = lmsCoefM * Y from by unfold lmsCoefM; ring]
    exact max_eq_right (mul_nonneg lmsCoefM_nonneg hY)
  have hs : max 0 (0.0482003018 * (xFactor * Y) + 0.2643662691 * Y +
      0.633851707 * (zFactor * Y)) = lmsCoefS * Y := by
    rw [show 0.0482003018 * (xFactor * Y) + 0.2643662691 * Y +
        0.633851707 * (zFactor * Y) = lmsCoefS * Y from by unfold lmsCoefS; ring]
    exact max_eq_right (mul_nonneg lmsCoefS_nonneg hY)
  rw [hl, hm, hs,
    jsCbrt_of_nonneg _ (mul_nonneg lmsCoefL_nonneg hY),
    jsCbrt_of_nonneg _ (mul_nonneg lmsCoefM_nonneg hY),
    jsCbrt_of_nonneg _ (mul_nonneg lmsCoefS_nonneg hY),
    Real.mul_rpow lmsCoefL_nonneg hY,
    Real.mul_rpow lmsCoefM_nonneg hY,
    Real.mul_rpow lmsCoefS_nonneg hY]
  unfold oklabSlope
  ring

theorem yToOklab_mono (Y1 Y2 : ℝ) (h0 : 0 ≤ Y1) (h12 : Y1 ≤ Y2) :
    yToOklabLightness Y1 ≤ yToOklabLightness Y2 := by
  rw [yToOklab_factored Y1 h0, yToOklab_factored Y2 (le_trans h0 h12)]
  exact mul_le_mul_of_nonneg_left (Real.rpow_le_rpow h0 h12 (by norm_num)) oklabSlope_nonneg

theorem add_sqrt_sq_mono (d v1 v2 : ℝ) (hd : 0 ≤ d) (h : v1 ≤ v2) :
    v1 + Real.sqrt (v1 ^ 2 + d) ≤ v2 + Real.sqrt (v2 ^ 2 + d) := by
  set s1 := Real.sqrt (v1 ^ 2 + d) with hs1def
  set s2 := Real.sqrt (v2 ^ 2 + d) with hs2def
  have hs1 : s1 ^ 2 = v1 ^ 2 + d := Real.sq_sqrt (by positivity)
  have hs2 : s2 ^ 2 = v2 ^ 2 + d := Real.sq_sqrt (by positivity)
  have h1n : 0 ≤ s1 := Real.sqrt_nonneg _
  have h2n : 0 ≤ s2 := Real.sqrt_nonneg _
  have ha1 : -v1 ≤ s1 := by
    have habs : |v1| ≤ s1 := by
      rw [hs1def, ← Real.sqrt_sq_eq_abs]
      exact Real.sqrt_le_sqrt (by linarith)
    linarith [neg_abs_le v1]
  have ha2 : -v2 ≤ s2 := by
    have habs : |v2| ≤ s2 := by
      rw [hs2def, ← Real.sqrt_sq_eq_abs]
      exact Real.sqrt_le_sqrt (by linarith)
    linarith [neg_abs_le v2]
  rcases eq_or_lt_of_le (add_nonneg h1n h2n) with hzero | hpos
  · have hs1z : s1 = 0 := by linarith
    have hs2z : s2 = 0 := by linarith
    rw [hs1z, hs2z] at *
    linarith
  · have key : 0 ≤ (v2 - v1) * (v1 + v2 + s1 + s2) :=
      mul_nonneg (by linarith) (by linarith)
    nlinarith [key, hs1, hs2, hpos]

theorem toe_mono (L1 L2 : ℝ) (h : L1 ≤ L2) : toe L1 ≤ toe L2 := by
  simp only [toe]
  have harg : ∀ L : ℝ, (toeK3 * L - toeK1) * (toeK3 * L - toeK1) + 4 * toeK2 * toeK3 * L
      = (toeK3 * L - toeK1 + 2 * toeK2) ^ 2 + (4 * toeK2 * toeK1 - 4 * toeK2 ^ 2) := by
    intro L; ring
  rw [harg L1, harg L2]
  have hd : (0 : ℝ) ≤ 4 * toeK2 * toeK1 - 4 * toeK2 ^ 2 := by
    unfold toeK1 toeK2; norm_num
  have hk3 : (0 : ℝ) ≤ toeK3 := by unfold toeK3; norm_num
  have hv : toeK3 * L1 - toeK1 + 2 * toeK2 ≤ toeK3 * L2 - toeK1 + 2 * toeK2 := by
    have := mul_le_mul_of_nonneg_left h hk3
    linarith
  have := add_sqrt_sq_mono _ _ _ hd hv
  linarith

theorem scaleToContrast_one_le (s : ℝ) (h0 : 0 ≤ s) : 1 ≤ scaleToContrast s := by
  unfold scaleToContrast
  rw [show (1 : ℝ) = Real.exp 0 from Real.exp_zero.symm]
  apply Real.exp_le_exp.mpr
  have hlog : (0 : ℝ) ≤ Real.log 21 := Real.log_nonneg (by norm_num)
  positivity

theorem scaleToContrast_le_21 (s : ℝ) (h1 : s ≤ 1000) : scaleToContrast s ≤ 21 := by
  unfold scaleToContrast
  have hlog : (0 : ℝ) ≤ Real.log 21 := Real.log_nonneg (by norm_num)
  calc Real.exp (Real.log 21 * (s / 1000)) ≤ Real.exp (Real.log 21 * 1) := by
        apply Real.exp_le_exp.mpr
        apply mul_le_mul_of_nonneg_left ?_ hlog
        linarith
    _ = 21 := by rw [mul_one]; exact Real.exp_log (by norm_num)

theorem scaleToContrast_mono (s1 s2 : ℝ) (h : s1 ≤ s2) :
    scaleToContrast s1 ≤ scaleToContrast s2 := by
  unfold scaleToContrast
  apply Real.exp_le_exp.mpr
  apply mul_le_mul_of_nonneg_left ?_ (Real.log_nonneg (by norm_num))
  linarith

theorem reverseWCAGContrastRun_at_one (c : ℝ) :
    reverseWCAGContrastRun c 1 = max 0 (min 1 ((1 + 0.05) / c - 0.05)) := by
  simp only [reverseWCAGContrastRun]
  rw [if_pos (by norm_num : (1 : ℝ) > 0.18)]

theorem reverseWCAGContrastRun_nonneg (c y : ℝ) : 0 ≤ reverseWCAGContrastRun c y :=
  le_max_left 0 _

theorem reverseWCAGContrastRun_le_one (c y : ℝ) : reverseWCAGContrastRun c y ≤ 1 := by
  simp only [reverseWCAGContrastRun]
  exact max_le (by norm_num) (min_le_left _ _)

theorem reverseWCAGContrastRun_antitone (c1 c2 : ℝ) (h1 : 1 ≤ c1) (h : c1 ≤ c2) :
    reverseWCAGContrastRun c2 1 ≤ reverseWCAGContrastRun c1 1 := by
  rw [reverseWCAGContrastRun_at_one, reverseWCAGContrastRun_at_one]
  have hdiv : (1 + 0.05) / c2 ≤ (1 + 0.05) / c1 := by
    gcongr
  exact max_le_max le_rfl (min_le_min le_rfl (by linarith))

theorem computeLightness_ok (s : ℕ) (hs : s ≤ 1000) :
    computeLightness s = Except.ok (rawLightness s) := by
  have h1 : 1 ≤ scaleToContrast s := scaleToContrast_one_le _ (by positivity)
  have h2 : scaleToContrast s ≤ 21 := by
    apply scaleToContrast_le_21
    exact_mod_cast hs
  unfold computeLightness reverseWCAGContrast
  rw [if_neg (not_not_intro ⟨by norm_num, by norm_num⟩),
    if_neg (not_not_intro ⟨h1, h2⟩)]
  rfl

/-- C6: for every step in `[0, 1000]` the interpolated contrast lies in
`[1, 21]` and the reference luminance `1.0` lies in `[0, 1]`, so the
defensive validation branch of the WCAG inversion is unreachable and the
lightness computation succeeds. -/
theorem domain_validation_unreachable (s : ℕ) (hs : s ≤ 1000) :
    (1 ≤ scaleToContrast s ∧ scaleToContrast s ≤ 21) ∧
    ((0 : ℝ) ≤ 1 ∧ (1 : ℝ) ≤ 1) ∧
    computeLightness s = Except.ok (rawLightness s) :=
  ⟨⟨scaleToContrast_one_le _ (by positivity),
    scaleToContrast_le_21 _ (by exact_mod_cast hs)⟩,
   ⟨by norm_num, le_refl 1⟩,
   computeLightness_ok s hs⟩

theorem domain_validation_unreachable_witness :
    (1 ≤ scaleToContrast 500 ∧ scaleToContrast 500 ≤ 21) ∧
    ((0 : ℝ) ≤ 1 ∧ (1 : ℝ) ≤ 1) ∧
    computeLightness 500 = Except.ok (rawLightness 500) :=
  domain_validation_unreachable 500 (by norm_num)

/-- C3: the lightness table is monotonically non-increasing in the step: a
larger step yields a smaller or equal raw lightness and a smaller or equal
stored (rounded) table entry, because the exponential contrast interpolation,
the WCAG inversion against reference luminance 1, the Y-to-Oklab conversion
and the toe remap compose to an antitone map of the step. -/
theorem lightnessTable_monotone (s1 s2 : ℕ) (h12 : s1 < s2) (_hs2 : s2 ≤ 1000) :
    rawLightness s2 ≤ rawLightness s1 ∧
    lightnessTableValue s2 ≤ lightnessTableValue s1 := by
  have hcast : (s1 : ℝ) ≤ (s2 : ℝ) := by exact_mod_cast h12.le
  have hc1 : 1 ≤ scaleToContrast s1 := scaleToContrast_one_le _ (by positivity)
  have hY : reverseWCAGContrastRun (scaleToContrast s2) 1 ≤
      reverseWCAGContrastRun (scaleToContrast s1) 1 :=
    reverseWCAGContrastRun_antitone _ _ hc1 (scaleToContrast_mono _ _ hcast)
  have hraw : rawLightness s2 ≤ rawLightness s1 := by
    unfold rawLightness yToOkhslLightness
    exact toe_mono _ _ (yToOklab_mono _ _ (reverseWCAGContrastRun_nonneg _ _) hY)
  refine ⟨hraw, ?_⟩
  unfold lightnessTableValue jsRoundR
  have hfl : (⌊rawLightness s2 * 100 + 1/2⌋ : ℝ) ≤ (⌊rawLightness s1 * 100 + 1/2⌋ : ℝ) := by
    exact_mod_cast Int.floor_le_floor (by linarith)
  linarith

theorem lightnessTable_monotone_witness :
    rawLightness 5 ≤ rawLightness 3 ∧
    lightnessTableValue 5 ≤ lightnessTableValue 3 :=
  lightnessTable_monotone 3 5 (by norm_num) (by norm_num)
